import Mathlib

/-!
# Verification of the uGFX GTIMER engine and the RAW32 cooperative scheduler

This file embeds, in Lean, the timer-list operations of `src/gtimer` (the
flags, the `TimeIsWithin` window macro, the periodic advance formula of the
scan loop, `gtimerStart`, `gtimerStop`, `gtimerIsActive`, `gtimerJab`) and
the cooperative scheduler operations of `src/gos` (`gfxYield`,
`gfxThreadExit`, `gfxThreadCreate`, `gfxThreadWait`), and proves or refutes
the stated properties of these operations.

Conventions of the embedding:
* C pointers to records become natural-number identifiers; memory becomes a
  total function from identifiers to records; a C pointer write becomes a
  function update.  Distinct records have distinct identifiers.
* `systemticks_t`/`delaytime_t` are unsigned 32-bit: tick arithmetic is
  `Nat` arithmetic reduced `% W` with `W = 2^32`.
* The C flag words are represented as records of `Bool`s, one field per
  flag bit; `flags |= F` sets the field, `flags &= ~F` clears it,
  `flags = 0` clears all fields, `flags & F` tests the field.
-/

/-- Width of the unsigned tick arithmetic: tick values wrap at `2^32`. -/
def W : Nat := 4294967296

/-- `TIME_IMMEDIATE` (0). -/
def TIME_IMMEDIATE : Nat := 0

/-- `TIME_INFINITE` (`(delaytime_t)-1`, the all-ones 32-bit value). -/
def TIME_INFINITE : Nat := W - 1

/-- Pointwise update of a memory function at one identifier. -/
def upd {α : Type} (m : Nat → α) (i : Nat) (a : α) : Nat → α :=
  fun j => if j = i then a else m j

theorem upd_same {α : Type} (m : Nat → α) (i : Nat) (a : α) : upd m i a i = a := by
  simp [upd]

theorem upd_other {α : Type} (m : Nat → α) (i j : Nat) (a : α) (h : j ≠ i) :
    upd m i a j = m j := by
  simp [upd, h]

/-! ## The GTIMER data model (`include/gtimer/gtimer.h`, `src/gtimer`)

The flag word of a `GTimer` holds the four bits `GTIMER_FLG_PERIODIC`
(0x0001), `GTIMER_FLG_INFINITE` (0x0002), `GTIMER_FLG_JABBED` (0x0004),
`GTIMER_FLG_SCHEDULED` (0x0008); each becomes one `Bool` field here. -/

structure GTFlags where
  periodic : Bool
  infinite : Bool
  jabbed : Bool
  scheduled : Bool
deriving DecidableEq

/-- The all-clear flag word (`pt->flags = 0`). -/
def GTFlags.zero : GTFlags := ⟨false, false, false, false⟩

/-- A `GTimer` record: callback, argument, absolute wake time (`when`),
period, flag word, and the two circular-list links (identifiers of
records). -/
structure GTimer where
  fn : Nat
  param : Nat
  twhen : Nat
  period : Nat
  flags : GTFlags
  next : Nat
  prev : Nat
deriving DecidableEq

/-- The process-wide timer-engine state: the record memory and the list
head `pTimerHead` (`none` models the null pointer). -/
structure GTimerSys where
  mem : Nat → GTimer
  pTimerHead : Option Nat

/-- The `TimeIsWithin(x, start, end)` macro of `src/gtimer`:
`((end >= start && x >= start && x <= end) || (end < start && (x >= start || x <= end)))`. -/
def TimeIsWithin (x start e : Nat) : Bool :=
  (decide (start ≤ e) && decide (start ≤ x) && decide (x ≤ e)) ||
    (decide (e < start) && (decide (start ≤ x) || decide (x ≤ e)))

/-- The scan loop's due test for one record:
`(pt->flags & GTIMER_FLG_JABBED) || (!(pt->flags & GTIMER_FLG_INFINITE)
&& TimeIsWithin(pt->when, lastTime, tm))`. -/
def timerDue (fl : GTFlags) (twhen lastTime tm : Nat) : Bool :=
  fl.jabbed || (!fl.infinite && TimeIsWithin twhen lastTime tm)

/-- The scan loop's periodic advance
`pt->when += ((tm + pt->period - pt->when) / pt->period) * pt->period`
in unsigned 32-bit arithmetic (`/` is C unsigned, i.e. flooring, division). -/
def scanAdvance (twhen period tm : Nat) : Nat :=
  (twhen + (tm + period + (W - twhen)) % W / period * period) % W

/-- The advance formula as the spec words it:
`when += period * ceil((now + period - when) / period)` with a genuine
ceiling of the (wrapped) quotient.  Stated only to compare against
`scanAdvance`, which the source uses. -/
def specCeilAdvance (twhen period tm : Nat) : Nat :=
  (twhen + ((tm + period + (W - twhen)) % W + period - 1) / period * period) % W

/-- `gtimerJab`: `pt->flags |= GTIMER_FLG_JABBED` (the semaphore bump has no
effect on the modelled state). -/
def gtimerJab (s : GTimerSys) (pt : Nat) : GTimerSys :=
  { s with mem := upd s.mem pt { s.mem pt with flags := { (s.mem pt).flags with jabbed := true } } }

/-- `gtimerIsActive`: `(pt->flags & GTIMER_FLG_SCHEDULED) ? TRUE : FALSE`. -/
def gtimerIsActive (s : GTimerSys) (pt : Nat) : Bool :=
  (s.mem pt).flags.scheduled

/-- `gtimerInit`: `pt->flags = 0`. -/
def gtimerInit (s : GTimerSys) (pt : Nat) : GTimerSys :=
  { s with mem := upd s.mem pt { s.mem pt with flags := GTFlags.zero } }

/-- The unlink pointer surgery shared by `gtimerStart`'s cancel branch and
`gtimerStop` (`pt->next->prev = pt->prev; pt->prev->next = pt->next;
if (pTimerHead == pt) pTimerHead = pt->next;`), translated statement by
statement with reads from the memory current at each statement. -/
def unlinkSurgery (s : GTimerSys) (ptId : Nat) : GTimerSys :=
  let pt := s.mem ptId
  let m1 := upd s.mem pt.next { s.mem pt.next with prev := pt.prev }
  let m2 := upd m1 pt.prev { m1 pt.prev with next := pt.next }
  { mem := m2
    pTimerHead := if s.pTimerHead = some ptId then some pt.next else s.pTimerHead }

/-- `gtimerStart`'s cancel branch: note its emptiness test is
`pt->next == pt->prev`. -/
def startUnlink (s : GTimerSys) (ptId : Nat) : GTimerSys :=
  if (s.mem ptId).next = (s.mem ptId).prev then { s with pTimerHead := none }
  else unlinkSurgery s ptId

/-- `gtimerStop`'s cancel branch: its emptiness test is `pt->next == pt`. -/
def stopUnlink (s : GTimerSys) (ptId : Nat) : GTimerSys :=
  if (s.mem ptId).next = ptId then { s with pTimerHead := none }
  else unlinkSurgery s ptId

/-- "Just pop it on the end of the queue": `pt->next = pTimerHead;
pt->prev = pTimerHead->prev; pt->prev->next = pt; pt->next->prev = pt;`
or, on an empty list, `pt->next = pt->prev = pTimerHead = pt;`. -/
def listAppend (s : GTimerSys) (ptId : Nat) : GTimerSys :=
  match s.pTimerHead with
  | some h =>
      let m := s.mem
      let ma := upd m ptId { m ptId with next := h, prev := (m h).prev }
      let np := (ma ptId).prev
      let mb := upd ma np { ma np with next := ptId }
      let nn := (mb ptId).next
      let mc := upd mb nn { mb nn with prev := ptId }
      { mem := mc, pTimerHead := s.pTimerHead }
  | none =>
      { mem := upd s.mem ptId { s.mem ptId with next := ptId, prev := ptId }
        pTimerHead := some ptId }

/-- `gtimerStart`, translated statement by statement.  The lazy worker
thread creation and the semaphore bump touch no modelled state; the tick
source `gfxSystemTicks()` is the parameter `now` and the platform
millisecond-to-tick conversion is taken as the identity on tick values. -/
def gtimerStart (s : GTimerSys) (ptId : Nat) (fn param : Nat) (periodic : Bool)
    (millisec : Nat) (now : Nat) : GTimerSys :=
  -- "Is this already scheduled?  Cancel it!"
  let s1 := if (s.mem ptId).flags.scheduled then startUnlink s ptId else s
  -- "Set up the timer structure"
  let pt0 := s1.mem ptId
  let fl0 : GTFlags := ⟨periodic, false, false, true⟩
  let (fl, period, twhen) :=
    if millisec = TIME_INFINITE then ({ fl0 with infinite := true }, TIME_INFINITE, pt0.twhen)
    else (fl0, millisec % W, (now + millisec % W) % W)
  listAppend
    { s1 with
      mem := upd s1.mem ptId
        { pt0 with fn := fn, param := param, flags := fl, period := period, twhen := twhen } }
    ptId

/-- `gtimerStop`, translated statement by statement. -/
def gtimerStop (s : GTimerSys) (ptId : Nat) : GTimerSys :=
  if (s.mem ptId).flags.scheduled then
    let s1 := stopUnlink s ptId
    -- "Make sure we know the structure is dead!"
    { s1 with mem := upd s1.mem ptId { s1.mem ptId with flags := GTFlags.zero } }
  else s

/-- Follow `next` links from `start`, stopping when the walk returns to
`start` or the fuel runs out (the scan's `do { .. } while (pt != pTimerHead)`
traversal order). -/
def traverseAux (m : Nat → GTimer) (start : Nat) : Nat → Nat → List Nat
  | _, 0 => []
  | cur, fuel + 1 =>
      cur :: (if (m cur).next = start then [] else traverseAux m start ((m cur).next) fuel)

/-- The timer list as traversed from `pTimerHead` (empty when the head is
null). -/
def timerList (s : GTimerSys) (fuel : Nat) : List Nat :=
  match s.pTimerHead with
  | none => []
  | some h => traverseAux s.mem h h fuel

/-- How many of the given records have `GTIMER_FLG_SCHEDULED` set. -/
def scheduledCount (s : GTimerSys) (ids : List Nat) : Nat :=
  (ids.filter (fun i => gtimerIsActive s i)).length

/-- The all-zero record (`_GTIMER_DATA()` static initializer). -/
def GTimer.zero : GTimer := ⟨0, 0, 0, 0, GTFlags.zero, 0, 0⟩

/-- The initial engine state: null head, all records zero-initialised. -/
def initTimerSys : GTimerSys := ⟨fun _ => GTimer.zero, none⟩

/-! ### States exercising `gtimerStart` on a two-record list -/

/-- One timer started on the empty engine. -/
def oneStarted : GTimerSys := gtimerStart initTimerSys 0 0 0 false 10 100

/-- A second timer started: the circular list holds records 0 and 1. -/
def twoStarted : GTimerSys := gtimerStart oneStarted 1 0 0 false 10 100

/-- Record 0 (the head) re-armed while the list holds exactly two records. -/
def rearmHeadOfTwo : GTimerSys := gtimerStart twoStarted 0 0 0 false 10 100

/-- Record 1 (the tail) re-armed while the list holds exactly two records. -/
def rearmTailOfTwo : GTimerSys := gtimerStart twoStarted 1 0 0 false 10 100

/-! ### Flag preservation by the link surgery -/

theorem upd_keepflags {m : Nat → GTimer} {i j : Nat} {r : GTimer}
    (hr : r.flags = (m i).flags) : ((upd m i r) j).flags = (m j).flags := by
  by_cases hj : j = i <;> simp [upd, hj, hr]

theorem unlinkSurgery_flags (s : GTimerSys) (p j : Nat) :
    ((unlinkSurgery s p).mem j).flags = (s.mem j).flags := by
  refine (upd_keepflags ?_).trans (upd_keepflags ?_) <;> rfl

theorem startUnlink_flags (s : GTimerSys) (p j : Nat) :
    ((startUnlink s p).mem j).flags = (s.mem j).flags := by
  unfold startUnlink
  split
  · rfl
  · exact unlinkSurgery_flags s p j

theorem listAppend_flags (s : GTimerSys) (p j : Nat) :
    ((listAppend s p).mem j).flags = (s.mem j).flags := by
  unfold listAppend
  split
  · dsimp only
    refine (upd_keepflags ?_).trans ((upd_keepflags ?_).trans (upd_keepflags ?_)) <;> rfl
  · dsimp only
    refine upd_keepflags ?_
    rfl

/-- The flag word `gtimerStart` leaves on the started record:
`GTIMER_FLG_SCHEDULED`, plus `GTIMER_FLG_PERIODIC` iff requested, plus
`GTIMER_FLG_INFINITE` iff the delay is `TIME_INFINITE`; `JABBED` cleared. -/
theorem gtimerStart_flags (s : GTimerSys) (ptId fn param : Nat) (periodic : Bool)
    (ms now : Nat) :
    ((gtimerStart s ptId fn param periodic ms now).mem ptId).flags =
      ⟨periodic, decide (ms = TIME_INFINITE), false, true⟩ := by
  unfold gtimerStart
  rw [listAppend_flags]
  by_cases hms : ms = TIME_INFINITE <;> simp [hms, upd]

/-! ## Claims on the timer engine's scan arithmetic -/

/-- C4: `TimeIsWithin(x, start, end)` holds exactly when `x` lies in the
circular window from `start` to `end` — `start ≤ x ≤ end` when the window
does not wrap (`end ≥ start`), and `x ≥ start ∨ x ≤ end` when it wraps
(`end < start`); and the scan judges a non-jabbed, non-infinite record due
exactly when `TimeIsWithin(pt->when, lastTime, tm)` holds. -/
theorem c4_window_and_due_test (x start e : Nat) (fl : GTFlags) (twhen lastTime tm : Nat)
    (hj : fl.jabbed = false) (hi : fl.infinite = false) :
    (TimeIsWithin x start e = true ↔
      (if start ≤ e then start ≤ x ∧ x ≤ e else (start ≤ x ∨ x ≤ e))) ∧
    timerDue fl twhen lastTime tm = TimeIsWithin twhen lastTime tm := by
  constructor
  · simp only [TimeIsWithin, Bool.or_eq_true, Bool.and_eq_true, decide_eq_true_eq]
    split <;> omega
  · simp [timerDue, hj, hi]

/-- Witness for `c4_window_and_due_test` at a concrete input. -/
theorem c4_window_and_due_test_witness :
    (TimeIsWithin 7 2 9 = true ↔
      (if 2 ≤ 9 then 2 ≤ 7 ∧ 7 ≤ 9 else (2 ≤ 7 ∨ 7 ≤ 9))) ∧
    timerDue ⟨true, false, false, true⟩ 7 2 9 = TimeIsWithin 7 2 9 :=
  c4_window_and_due_test 7 2 9 ⟨true, false, false, true⟩ 7 2 9 rfl rfl

/-- C2 counterexample: the code's advance
`pt->when += ((tm + pt->period - pt->when) / pt->period) * pt->period`
uses flooring unsigned division; it is NOT equivalent to
`when += period * ceil((now + period - when) / period)`: at
`when = 3, period = 10, now = 5` the code yields 13 while the ceiling
formula yields 23. -/
theorem c2_ceil_form_counterexample :
    scanAdvance 3 10 5 = 13 ∧ specCeilAdvance 3 10 5 = 23 ∧
    scanAdvance 3 10 5 ≠ specCeilAdvance 3 10 5 := by
  decide

/-- C2 amended: the scan's update is exactly
`when += ((tm + period - when) / period) * period` in wrapping unsigned
arithmetic with flooring division; it advances `when` by a whole number of
periods and always leaves the new wake time strictly after `tm` — the
wrapped distance `(when' - tm) mod W` lies in `[1, period]`. -/
theorem c2_advance_whole_periods_after_now (twhen period tm : Nat) (hp : 0 < period)
    (hpW : period < W) (hw : twhen < W) (ht : tm < W) :
    (∃ k, scanAdvance twhen period tm = (twhen + k * period) % W) ∧
    1 ≤ (scanAdvance twhen period tm + (W - tm)) % W ∧
    (scanAdvance twhen period tm + (W - tm)) % W ≤ period := by
  refine ⟨⟨(tm + period + (W - twhen)) % W / period, rfl⟩, ?_, ?_⟩ <;>
  · have h1 : (tm + period + (W - twhen)) % W / period * period
        + (tm + period + (W - twhen)) % W % period = (tm + period + (W - twhen)) % W :=
      Nat.div_add_mod' _ _
    have h2 : (tm + period + (W - twhen)) % W % period < period := Nat.mod_lt _ hp
    simp only [scanAdvance, W] at *
    generalize hdm : (tm + period + (4294967296 - twhen)) % 4294967296 % period = dm at h1 h2
    generalize hnp : (tm + period + (4294967296 - twhen)) % 4294967296 / period * period = np at h1 ⊢
    omega

/-- Witness for `c2_advance_whole_periods_after_now` at
`when = 3, period = 10, now = 5`. -/
theorem c2_advance_whole_periods_after_now_witness :
    (∃ k, scanAdvance 3 10 5 = (3 + k * 10) % W) ∧
    1 ≤ (scanAdvance 3 10 5 + (W - 5)) % W ∧
    (scanAdvance 3 10 5 + (W - 5)) % W ≤ 10 :=
  c2_advance_whole_periods_after_now 3 10 5 (by decide) (by decide) (by decide) (by decide)

/-! ## Claims on the list invariant under start/stop/jab sequences -/

/-- C1: violated by the code.  After `start 0; start 1; start 0` from the
initial empty state — re-arming a record while the list holds exactly two
records — `gtimerStart`'s cancel branch takes the `pt->next == pt->prev`
path and nulls `pTimerHead`, dropping record 1 from the list while its
`GTIMER_FLG_SCHEDULED` flag stays set: two records are flagged scheduled
but only one is reachable from the head.  (Before the fatal call the
invariant held: the list was `[0, 1]`.) -/
theorem c1_scheduled_count_breaks_on_rearm :
    scheduledCount twoStarted [0, 1] = 2 ∧
    timerList twoStarted 3 = [0, 1] ∧
    scheduledCount rearmHeadOfTwo [0, 1] = 2 ∧
    timerList rearmHeadOfTwo 3 = [0] ∧
    gtimerIsActive rearmHeadOfTwo 1 = true := by
  decide

/-- C6: violated by the code.  Re-arming record 1 — already scheduled, in
the two-record list `[0, 1]` — should unlink just record 1 and re-append
it at the tail, giving `[0, 1]` again; instead `gtimerStart`'s
`pt->next == pt->prev` test empties the whole list, and the re-appended
list is `[1]` with record 0 orphaned (still flagged scheduled, no longer
reachable). -/
theorem c6_rearm_drops_other_record :
    timerList twoStarted 3 = [0, 1] ∧
    (timerList twoStarted 3).erase 1 ++ [1] = [0, 1] ∧
    timerList rearmTailOfTwo 3 = [1] ∧
    gtimerIsActive rearmTailOfTwo 0 = true := by
  decide

/-! ## Claim C8: infinite-delay timers -/

/-- C8: a timer started with `TIME_INFINITE` gets `GTIMER_FLG_INFINITE`
set and `GTIMER_FLG_JABBED` clear, and the scan's due test rejects it (and
any other non-jabbed infinite record) regardless of its wake time and of
the scan window. -/
theorem c8_infinite_only_fires_on_jab (s : GTimerSys) (pt fn param : Nat) (periodic : Bool)
    (now : Nat) :
    ((gtimerStart s pt fn param periodic TIME_INFINITE now).mem pt).flags.infinite = true ∧
    ((gtimerStart s pt fn param periodic TIME_INFINITE now).mem pt).flags.jabbed = false ∧
    (∀ lastTime tm : Nat,
      timerDue ((gtimerStart s pt fn param periodic TIME_INFINITE now).mem pt).flags
        ((gtimerStart s pt fn param periodic TIME_INFINITE now).mem pt).twhen lastTime tm
        = false) ∧
    (∀ fl : GTFlags, ∀ w lt t2 : Nat, fl.jabbed = false → fl.infinite = true →
      timerDue fl w lt t2 = false) := by
  have hf := gtimerStart_flags s pt fn param periodic TIME_INFINITE now
  simp only [decide_eq_true_eq, decide_True] at hf
  refine ⟨by rw [hf], by rw [hf], ?_, ?_⟩
  · intro lastTime tm
    rw [hf]
    simp [timerDue]
  · intro fl w lt t2 hj hi
    simp [timerDue, hj, hi]

/-- Witness for `c8_infinite_only_fires_on_jab` at a concrete input. -/
theorem c8_infinite_only_fires_on_jab_witness :
    ((gtimerStart initTimerSys 0 0 0 false TIME_INFINITE 5).mem 0).flags.infinite = true ∧
    timerDue ⟨false, true, false, true⟩ 3 0 10 = false :=
  ⟨(c8_infinite_only_fires_on_jab initTimerSys 0 0 0 false 5).1,
   (c8_infinite_only_fires_on_jab initTimerSys 0 0 0 false 5).2.2.2 ⟨false, true, false, true⟩
     3 0 10 rfl rfl⟩

/-! ## Claim C7: `gtimerStop` — representation of the circular list

`isCircular m xs` says the records listed in `xs` are linked in a circular
doubly-linked list in that cyclic order: each record's `next` is the
following element (wrapping), and the following element's `prev` points
back. -/

def isCircular (m : Nat → GTimer) (xs : List Nat) : Prop :=
  ∀ i, i < xs.length →
    (m (xs.getD i 0)).next = xs.getD ((i + 1) % xs.length) 0 ∧
    (m (xs.getD ((i + 1) % xs.length) 0)).prev = xs.getD i 0

/-- The engine state holds exactly the timer list `xs`: the head pointer is
the first element of `xs` (null iff `xs` is empty), the elements are
distinct records, and they are circularly linked in order. -/
def repTimerList (s : GTimerSys) (xs : List Nat) : Prop :=
  s.pTimerHead = xs.head? ∧ xs.Nodup ∧ isCircular s.mem xs

theorem getD_rotate (xs : List Nat) (k i : Nat) (hi : i < xs.length) :
    (xs.rotate k).getD i 0 = xs.getD ((i + k) % xs.length) 0 := by
  have h1 : i < (xs.rotate k).length := by rw [List.length_rotate]; exact hi
  have h2 : (i + k) % xs.length < xs.length := Nat.mod_lt _ (by omega)
  rw [List.getD_eq_getElem _ _ h1, List.getD_eq_getElem _ _ h2]
  have := List.get_rotate xs k ⟨i, h1⟩
  simpa using this

theorem getD_inj (xs : List Nat) (hnd : xs.Nodup) {i j : Nat} (hi : i < xs.length)
    (hj : j < xs.length) (h : xs.getD i 0 = xs.getD j 0) : i = j := by
  rw [List.getD_eq_getElem _ _ hi, List.getD_eq_getElem _ _ hj] at h
  exact (hnd.getElem_inj_iff).mp h

theorem isCircular_rotate (m : Nat → GTimer) (xs : List Nat) (k : Nat)
    (hc : isCircular m xs) : isCircular m (xs.rotate k) := by
  intro i hi
  rw [List.length_rotate] at hi
  have hn : 0 < xs.length := by omega
  have hlen : (xs.rotate k).length = xs.length := List.length_rotate xs k
  have hik : (i + k) % xs.length < xs.length := Nat.mod_lt _ hn
  have hrot1 : (xs.rotate k).getD i 0 = xs.getD ((i + k) % xs.length) 0 :=
    getD_rotate _ _ _ hi
  have hrot2 : (xs.rotate k).getD ((i + 1) % (xs.rotate k).length) 0
      = xs.getD (((i + 1) % xs.length + k) % xs.length) 0 := by
    rw [hlen]
    exact getD_rotate _ _ _ (Nat.mod_lt _ hn)
  have hidx : ((i + 1) % xs.length + k) % xs.length
      = ((i + k) % xs.length + 1) % xs.length := by
    rw [Nat.mod_add_mod, Nat.mod_add_mod]
    have h1 : i + 1 + k = i + k + 1 := by omega
    rw [h1]
  obtain ⟨ha, hb⟩ := hc ((i + k) % xs.length) hik
  constructor
  · rw [hrot1, hrot2, hidx]
    exact ha
  · rw [hrot1, hrot2, hidx]
    exact hb

theorem isCircular_ext (m m' : Nat → GTimer) (xs : List Nat)
    (h : ∀ x ∈ xs, (m' x).next = (m x).next ∧ (m' x).prev = (m x).prev)
    (hc : isCircular m xs) : isCircular m' xs := by
  intro i hi
  have hi1 : (i + 1) % xs.length < xs.length := Nat.mod_lt _ (by omega)
  have hmem1 : xs.getD i 0 ∈ xs := by
    rw [List.getD_eq_getElem _ _ hi]; exact List.getElem_mem hi
  have hmem2 : xs.getD ((i + 1) % xs.length) 0 ∈ xs := by
    rw [List.getD_eq_getElem _ _ hi1]; exact List.getElem_mem hi1
  obtain ⟨ha, hb⟩ := hc i hi
  exact ⟨((h _ hmem1).1).trans ha, ((h _ hmem2).2).trans hb⟩

/-- In a non-degenerate circular list headed by `p`, `p`'s forward link is
the next listed record and its backward link is the last one. -/
theorem circ_head_links (m : Nat → GTimer) (p : Nat) (rest : List Nat)
    (hc : isCircular m (p :: rest)) (hr : rest ≠ []) :
    (m p).next = rest.getD 0 0 ∧ (m p).prev = rest.getD (rest.length - 1) 0 := by
  have hlen : (p :: rest).length = rest.length + 1 := rfl
  have hr1 : 1 ≤ rest.length := by
    cases rest with
    | nil => exact absurd rfl hr
    | cons a l => simp
  constructor
  · have h0 := (hc 0 (by simp)).1
    have e1 : (0 + 1) % (p :: rest).length = 1 := by
      rw [hlen]; exact Nat.mod_eq_of_lt (by omega)
    rw [e1] at h0
    exact h0
  · have h0 := (hc rest.length (by simp)).2
    have e1 : (rest.length + 1) % (p :: rest).length = 0 := by
      rw [hlen]; exact Nat.mod_self _
    rw [e1] at h0
    have e2 : (p :: rest).getD rest.length 0 = rest.getD (rest.length - 1) 0 := by
      cases rest with
      | nil => exact absurd rfl hr
      | cons a l => rfl
    rw [e2] at h0
    exact h0

/-- Effect of the unlink surgery on every record's links: `pt->prev`'s
forward link now skips to `pt->next`, `pt->next`'s backward link skips to
`pt->prev`, everything else is untouched (including the aliased cases). -/
theorem unlinkSurgery_links (s : GTimerSys) (p x : Nat) :
    ((unlinkSurgery s p).mem x).next
        = (if x = (s.mem p).prev then (s.mem p).next else (s.mem x).next) ∧
    ((unlinkSurgery s p).mem x).prev
        = (if x = (s.mem p).next then (s.mem p).prev else (s.mem x).prev) := by
  unfold unlinkSurgery
  dsimp only
  constructor <;>
  · simp only [upd]
    split_ifs <;> simp_all

/-- Unlinking the head `p` of a non-degenerate circular list leaves the
remaining records circularly linked in unchanged order. -/
theorem unlink_head_isCircular (s : GTimerSys) (p : Nat) (rest : List Nat)
    (hnd : (p :: rest).Nodup) (hc : isCircular s.mem (p :: rest)) (hr : rest ≠ []) :
    isCircular (unlinkSurgery s p).mem rest := by
  obtain ⟨hnext, hprev⟩ := circ_head_links s.mem p rest hc hr
  have hr1 : 1 ≤ rest.length := by
    cases rest with
    | nil => exact absurd rfl hr
    | cons a l => simp
  have hndrest : rest.Nodup := (List.nodup_cons.mp hnd).2
  intro i hi
  by_cases hlast : i = rest.length - 1
  · subst hlast
    have e1 : (rest.length - 1 + 1) % rest.length = 0 := by
      have h : rest.length - 1 + 1 = rest.length := by omega
      rw [h, Nat.mod_self]
    rw [e1]
    constructor
    · rw [(unlinkSurgery_links s p _).1,
        if_pos hprev.symm, hnext]
    · rw [(unlinkSurgery_links s p _).2,
        if_pos hnext.symm, hprev]
  · have hilt : i + 1 < rest.length := by omega
    have e1 : (i + 1) % rest.length = i + 1 := Nat.mod_eq_of_lt hilt
    rw [e1]
    have hedge := hc (i + 1) (by simp; omega)
    have e2 : (i + 1 + 1) % (p :: rest).length = i + 2 := by
      rw [List.length_cons]
      exact Nat.mod_eq_of_lt (by omega)
    rw [e2] at hedge
    have e3 : (p :: rest).getD (i + 2) 0 = rest.getD (i + 1) 0 := rfl
    have e4 : (p :: rest).getD (i + 1) 0 = rest.getD i 0 := rfl
    rw [e3, e4] at hedge
    constructor
    · rw [(unlinkSurgery_links s p _).1, if_neg ?_, hedge.1]
      rw [hprev]
      intro h
      have := getD_inj rest hndrest (by omega) (by omega) h
      omega
    · rw [(unlinkSurgery_links s p _).2, if_neg ?_, hedge.2]
      rw [hnext]
      intro h
      have := getD_inj rest hndrest (by omega) (by omega) h
      omega

theorem stopUnlink_flags (s : GTimerSys) (p j : Nat) :
    ((stopUnlink s p).mem j).flags = (s.mem j).flags := by
  unfold stopUnlink
  split
  · rfl
  · exact unlinkSurgery_flags s p j

/-- C7: `gtimerStop` on a record whose `GTIMER_FLG_SCHEDULED` flag is
clear is a no-op (the whole engine state is returned unchanged); on a
scheduled, listed record it removes exactly that record from the circular
list (preserving the others and their order), clears all its flags — so
`gtimerIsActive` afterwards returns FALSE — and changes no other record's
flags. -/
theorem c7_stop_removes_or_noop (s : GTimerSys) (ptId : Nat) :
    ((s.mem ptId).flags.scheduled = false → gtimerStop s ptId = s) ∧
    (∀ xs : List Nat, repTimerList s xs → (s.mem ptId).flags.scheduled = true → ptId ∈ xs →
      repTimerList (gtimerStop s ptId) (xs.erase ptId) ∧
      ptId ∉ xs.erase ptId ∧
      ((gtimerStop s ptId).mem ptId).flags = GTFlags.zero ∧
      gtimerIsActive (gtimerStop s ptId) ptId = false ∧
      (∀ q, q ≠ ptId → ((gtimerStop s ptId).mem q).flags = (s.mem q).flags)) := by
  constructor
  · intro h
    simp [gtimerStop, h]
  · intro xs hrep hsched hmem
    obtain ⟨hhead, hnd, hcirc⟩ := hrep
    have hstop_mem : (gtimerStop s ptId).mem
        = upd (stopUnlink s ptId).mem ptId
            { (stopUnlink s ptId).mem ptId with flags := GTFlags.zero } := by
      simp [gtimerStop, hsched]
    have hstop_head : (gtimerStop s ptId).pTimerHead = (stopUnlink s ptId).pTimerHead := by
      simp [gtimerStop, hsched]
    have hflagpt : ((gtimerStop s ptId).mem ptId).flags = GTFlags.zero := by
      rw [hstop_mem, upd_same]
    have hflagq : ∀ q, q ≠ ptId → ((gtimerStop s ptId).mem q).flags = (s.mem q).flags := by
      intro q hq
      rw [hstop_mem]
      have h1 : (upd (stopUnlink s ptId).mem ptId
          { (stopUnlink s ptId).mem ptId with flags := GTFlags.zero } q)
          = (stopUnlink s ptId).mem q := upd_other _ _ _ _ hq
      rw [h1]
      exact stopUnlink_flags s ptId q
    have hnotin : ptId ∉ xs.erase ptId := hnd.not_mem_erase
    have hactive : gtimerIsActive (gtimerStop s ptId) ptId = false := by
      simp [gtimerIsActive, hflagpt, GTFlags.zero]
    by_cases hself : (s.mem ptId).next = ptId
    · -- `pt->next == pt`: the list is the singleton [ptId]
      have hpos : 0 < xs.length := List.length_pos.mpr (List.ne_nil_of_mem hmem)
      have hlen1 : xs.length = 1 := by
        by_contra hne1
        have hlen2 : 2 ≤ xs.length := by omega
        obtain ⟨i, hilt, hival⟩ := List.mem_iff_getElem.mp hmem
        have hgd : xs.getD i 0 = ptId := by
          rw [List.getD_eq_getElem _ _ hilt]; exact hival
        have hedge := (hcirc i hilt).1
        rw [hgd, hself] at hedge
        have hij : i = (i + 1) % xs.length :=
          getD_inj xs hnd hilt (Nat.mod_lt _ (by omega)) (hgd.symm ▸ (hgd.trans hedge))
        rcases Nat.lt_or_ge (i + 1) xs.length with hlt | hge
        · rw [Nat.mod_eq_of_lt hlt] at hij; omega
        · have he : i + 1 = xs.length := by omega
          rw [he, Nat.mod_self] at hij
          omega
      obtain ⟨aa, hxa⟩ := List.length_eq_one.mp hlen1
      have ha : ptId = aa := by
        rw [hxa] at hmem
        simpa using hmem
      subst ha
      subst hxa
      have hhead2 : (stopUnlink s ptId).pTimerHead = none := by
        simp [stopUnlink, hself]
      refine ⟨⟨?_, by simp, ?_⟩, hnotin, hflagpt, hactive, hflagq⟩
      · rw [hstop_head, hhead2]
        simp
      · intro i hi
        simp at hi
    · -- general case: at least two records
      have hn2 : 2 ≤ xs.length := by
        have h1 : 0 < xs.length := List.length_pos.mpr (List.ne_nil_of_mem hmem)
        by_contra h
        have hlen1 : xs.length = 1 := by omega
        obtain ⟨aa, hxa⟩ := List.length_eq_one.mp hlen1
        have ha : ptId = aa := by
          rw [hxa] at hmem
          simpa using hmem
        subst ha
        subst hxa
        have hedge := (hcirc 0 (by simp)).1
        simp at hedge
        exact hself hedge
      obtain ⟨a, b, hab⟩ := List.append_of_mem hmem
      subst hab
      have hndp := List.nodup_append.mp hnd
      have hpa : ptId ∉ a := by
        intro hin
        exact hndp.2.2 hin (List.mem_cons_self _ _)
      have hpb : ptId ∉ b := (List.nodup_cons.mp hndp.2.1).1
      have hla : a.length ≤ (a ++ ptId :: b).length := by simp
      have hrot : (a ++ ptId :: b).rotate a.length = ptId :: (b ++ a) := by
        rw [List.rotate_eq_drop_append_take hla, List.drop_left, List.take_left]
        simp
      have hcys : isCircular s.mem (ptId :: (b ++ a)) := by
        rw [← hrot]
        exact isCircular_rotate _ _ _ hcirc
      have hndys : (ptId :: (b ++ a)).Nodup := by
        rw [← hrot]
        exact List.nodup_rotate.mpr hnd
      have hba_ne : (b ++ a) ≠ [] := by
        intro h
        obtain ⟨hb0, ha0⟩ := List.append_eq_nil.mp h
        rw [ha0, hb0] at hn2
        simp at hn2
      have hcm2 : isCircular (unlinkSurgery s ptId).mem (b ++ a) :=
        unlink_head_isCircular s ptId (b ++ a) hndys hcys hba_ne
      have hpba : ptId ∉ b ++ a := by
        simp only [List.mem_append]
        rintro (h | h)
        · exact hpb h
        · exact hpa h
      have hstopunlink : stopUnlink s ptId = unlinkSurgery s ptId := by
        simp [stopUnlink, hself]
      have hcm3 : isCircular (gtimerStop s ptId).mem (b ++ a) := by
        apply isCircular_ext (unlinkSurgery s ptId).mem _ _ ?_ hcm2
        intro x hx
        have hxne : x ≠ ptId := by
          rintro rfl
          exact hpba hx
        rw [hstop_mem, hstopunlink]
        constructor <;> simp [upd, hxne]
      have hrot2 : (b ++ a).rotate b.length = a ++ b := by
        rw [List.rotate_eq_drop_append_take (by simp), List.drop_left, List.take_left]
      have hcfinal : isCircular (gtimerStop s ptId).mem (a ++ b) := by
        rw [← hrot2]
        exact isCircular_rotate _ _ _ hcm3
      have herase : (a ++ ptId :: b).erase ptId = a ++ b := by
        rw [List.erase_append_right _ hpa, List.erase_cons_head]
      have hheadfinal : (gtimerStop s ptId).pTimerHead = (a ++ b).head? := by
        rw [hstop_head, hstopunlink]
        show (if s.pTimerHead = some ptId then some (s.mem ptId).next else s.pTimerHead) = _
        cases ha0 : a with
        | nil =>
          subst ha0
          have hh : s.pTimerHead = some ptId := by
            rw [hhead]
            rfl
          rw [if_pos hh]
          obtain ⟨hnx, _⟩ := circ_head_links s.mem ptId (b ++ []) hcys hba_ne
          rw [hnx]
          cases hb0 : b with
          | nil =>
            subst hb0
            simp at hba_ne
          | cons b0 bs =>
            subst hb0
            simp
        | cons a0 as =>
          subst ha0
          have hh : s.pTimerHead = some a0 := by
            rw [hhead]
            rfl
          have hne2 : ¬(s.pTimerHead = some ptId) := by
            rw [hh]
            intro hcon
            apply hpa
            have h5 : a0 = ptId := by simpa using hcon
            rw [← h5]
            exact List.mem_cons_self _ _
          rw [if_neg hne2, hh]
          rfl
      refine ⟨⟨?_, List.Nodup.erase _ hnd, ?_⟩, hnotin, hflagpt, hactive, hflagq⟩
      · rw [herase]
        exact hheadfinal
      · rw [herase]
        exact hcfinal

/-- Witness for `c7_stop_removes_or_noop`: stopping record 0 of the
two-record list `[0, 1]`. -/
theorem c7_stop_removes_or_noop_witness :
    repTimerList (gtimerStop twoStarted 0) ([0, 1].erase 0) ∧
    0 ∉ ([0, 1].erase 0) ∧
    ((gtimerStop twoStarted 0).mem 0).flags = GTFlags.zero ∧
    gtimerIsActive (gtimerStop twoStarted 0) 0 = false ∧
    (∀ q, q ≠ 0 → ((gtimerStop twoStarted 0).mem q).flags = (twoStarted.mem q).flags) :=
  (c7_stop_removes_or_noop twoStarted 0).2 [0, 1]
    (by unfold repTimerList isCircular; exact ⟨by decide, by decide, by decide⟩)
    (by decide) (by decide)

/-! ## The RAW32 cooperative scheduler (`src/gos`)

The scheduler operations `gfxYield`, `gfxThreadExit`, `gfxThreadCreate`,
`gfxThreadWait` and `gfxThreadMe` are in the sources.  The `thread`
structure, the `FLG_THD_*` flag constants and the queue helpers
`Qinit`/`Qadd`/`Qpop` belong to the RAW32 port header that is not among
the sources; they are modelled from the spec (the Ready/Dead queues are
FIFO collections: `Qadd` appends at the tail, `Qpop` removes the head).
The saved `jmp_buf` context and `gfxThreadCreate`'s stack-frame relocation
affect no scheduler-visible state and are omitted; `gfxAlloc`'s outcome is
an oracle parameter of `gfxThreadCreate`. -/

/-- Modelled from the spec: the thread flag bits `FLG_THD_MAIN`,
`FLG_THD_ALLOC` (library-allocated storage), `FLG_THD_WAIT` (being waited
on) and `FLG_THD_DEAD`, one `Bool` each. -/
structure ThdFlags where
  main : Bool
  alloc : Bool
  waited : Bool
  dead : Bool
deriving DecidableEq

/-- Modelled from the spec: a thread control block.  `param` carries the
entry argument and, after `gfxThreadExit`, the result (the C code stores
both through the same `void *param` field); `fn` is an opaque entry
identifier; `size` is the stack size. -/
structure thread where
  flags : ThdFlags
  size : Nat
  fn : Nat
  param : Int
deriving DecidableEq

/-- The scheduler state: the thread-block memory, the running thread, the
FIFO Ready and Dead queues, and — part of the allocator environment, not
of the C state — the list `alive` of currently valid (allocated, unfreed)
thread blocks: `gfxAlloc` only returns blocks outside it, `gfxFree`
removes one. -/
structure Sched where
  mem : Nat → thread
  current : Nat
  readyQ : List Nat
  deadQ : List Nat
  alive : List Nat

/-- `gfxYield`: requeue the current thread at the Ready tail, `gfxFree`
every Dead-queue entry, pop the new Ready head and resume it.  Returns the
new state and the list of blocks passed to `gfxFree`. -/
def gfxYield (s : Sched) : Sched × List Nat :=
  let rq := s.readyQ ++ [s.current]
  let freed := s.deadQ
  ({ s with
      current := rq.headD s.current
      readyQ := rq.tail
      deadQ := []
      alive := s.alive.filter (fun t => decide (t ∉ freed)) }, freed)

/-- `gfxThreadExit`: store the result in `current->param`, set
`FLG_THD_DEAD`, append to the Dead queue when
`(flags & (FLG_THD_ALLOC|FLG_THD_WAIT)) == FLG_THD_ALLOC`, and resume the
next Ready thread; `none` models the fatal `gfxExit()` on an empty Ready
queue. -/
def gfxThreadExit (ret : Int) (s : Sched) : Option Sched :=
  let c := s.current
  let t1 := { s.mem c with param := ret, flags := { (s.mem c).flags with dead := true } }
  let m := upd s.mem c t1
  let dq := if t1.flags.alloc && !t1.flags.waited then s.deadQ ++ [c] else s.deadQ
  match s.readyQ with
  | [] => none
  | c2 :: rest => some { s with mem := m, current := c2, readyQ := rest, deadQ := dq }

/-- `gfxThreadCreate`.  `stackarea` is the caller's buffer (`none` =
null), `alloc` the allocator's answer when `gfxAlloc` is reached, and
`szThread` stands for `sizeof(thread)`.  Returns the handle (`none` =
null) and the new state.  Sizes below `sizeof(thread)+64` are raised to
that minimum with the caller buffer discarded, as in the source. -/
def gfxThreadCreate (s : Sched) (stackarea : Option Nat) (stacksz : Nat) (fnv : Nat)
    (param : Int) (alloc : Option Nat) (szThread : Nat) : Option Nat × Sched :=
  -- "Ensure we have a minimum stack size"
  let (stacksz2, stackarea2) :=
    if stacksz < szThread + 64 then (szThread + 64, (none : Option Nat))
    else (stacksz, stackarea)
  match stackarea2 with
  | some t =>
      let m := upd s.mem t
        { flags := ⟨false, false, false, false⟩, size := stacksz2, fn := fnv, param := param }
      (some t, { s with mem := m, readyQ := s.readyQ ++ [t], alive := t :: s.alive })
  | none =>
      match alloc with
      | none => (none, s)
      | some t =>
          let m := upd s.mem t
            { flags := ⟨false, true, false, false⟩, size := stacksz2, fn := fnv, param := param }
          (some t, { s with mem := m, readyQ := s.readyQ ++ [t], alive := t :: s.alive })

/-- `gfxThreadWait`, entry part: the self-wait check
(`if (t == current) return -1;`) returns at once with the state untouched;
otherwise `FLG_THD_WAIT` is set on the target and the caller enters the
yield loop. -/
def gfxThreadWaitEntry (s : Sched) (th : Nat) : Sum (Int × Sched) Sched :=
  if th = s.current then Sum.inl (-1, s)
  else
    let t1 := { s.mem th with flags := { (s.mem th).flags with waited := true } }
    Sum.inr { s with mem := upd s.mem th t1 }

/-- `gfxThreadWait`, loop-exit part, executed once the yield loop observes
`FLG_THD_DEAD`: clear `FLG_THD_WAIT`, `gfxFree` the block if it carries
`FLG_THD_ALLOC`, and return the stored result (the C code reads
`t->param` after the free; block contents are unchanged by `gfxFree` in
this model).  Returns (result, state, freed blocks). -/
def gfxThreadWaitFinish (s : Sched) (th : Nat) : Int × Sched × List Nat :=
  let t1 := { s.mem th with flags := { (s.mem th).flags with waited := false } }
  let m := upd s.mem th t1
  if t1.flags.alloc then
    (t1.param, { s with mem := m, alive := s.alive.filter (fun x => decide (x ≠ th)) }, [th])
  else
    (t1.param, { s with mem := m }, [])

/-- `gfxThreadMe`: the current context's handle. -/
def gfxThreadMe (s : Sched) : Nat := s.current

/-- The scheduler actions a running system can take. -/
inductive SchedAct where
  | yield : SchedAct
  | exitThread : Int → SchedAct
  | create : Option Nat → Nat → Nat → Int → Option Nat → Nat → SchedAct
  | waitEntry : Nat → SchedAct
  | waitSelf : SchedAct
  | waitFinish : Nat → SchedAct
deriving DecidableEq

/-- The blocks one action passes to `gfxFree` from state `s`. -/
def freedBy (s : Sched) (a : SchedAct) : List Nat :=
  match a with
  | SchedAct.yield => (gfxYield s).2
  | SchedAct.waitFinish th => (gfxThreadWaitFinish s th).2.2
  | _ => []

/-- One scheduler step.  The side conditions on `create` state that the
new block — caller-supplied or freshly allocated — is not an existing
live block (`gfxAlloc` returns fresh memory; handing the scheduler a live
block as a stack buffer is a caller error the spec leaves undefined).
`waitFinish` fires only when its target is dead — the wait loop's exit
condition. -/
inductive SchedStep : Sched → SchedAct → Sched → Prop where
  | yield (s : Sched) : SchedStep s SchedAct.yield (gfxYield s).1
  | exitThread (s : Sched) (v : Int) (s2 : Sched) :
      gfxThreadExit v s = some s2 → SchedStep s (SchedAct.exitThread v) s2
  | create (s : Sched) (sa : Option Nat) (sz fnv : Nat) (p : Int) (alloc : Option Nat)
      (szT : Nat) :
      (∀ t, sa = some t → t ∉ s.alive) → (∀ t, alloc = some t → t ∉ s.alive) →
      SchedStep s (SchedAct.create sa sz fnv p alloc szT)
        (gfxThreadCreate s sa sz fnv p alloc szT).2
  | waitEntry (s : Sched) (th : Nat) (s2 : Sched) :
      gfxThreadWaitEntry s th = Sum.inr s2 → SchedStep s (SchedAct.waitEntry th) s2
  | waitSelf (s : Sched) : SchedStep s SchedAct.waitSelf s
  | waitFinish (s : Sched) (th : Nat) :
      (s.mem th).flags.dead = true →
      SchedStep s (SchedAct.waitFinish th) (gfxThreadWaitFinish s th).2.1

/-- Reflexive-transitive closure of scheduler steps, accumulating the
action list and all blocks passed to `gfxFree`. -/
inductive SchedSteps : Sched → List SchedAct → List Nat → Sched → Prop where
  | refl (s : Sched) : SchedSteps s [] [] s
  | tail (s : Sched) (acts : List SchedAct) (fr : List Nat) (s2 : Sched) (a : SchedAct)
      (s3 : Sched) :
      SchedSteps s acts fr s2 → SchedStep s2 a s3 →
      SchedSteps s (acts ++ [a]) (fr ++ freedBy s2 a) s3

/-- `c` is a live, caller-owned thread block (no `FLG_THD_ALLOC`). -/
def callerThread (s : Sched) (c : Nat) : Prop :=
  c ∈ s.alive ∧ (s.mem c).flags.alloc = false

/-! ## Claim C10: waiting on oneself -/

/-- C10: `gfxThreadWait` called on the current thread's own handle returns
-1 immediately with the scheduler state — threads, flags, Ready and Dead
queues — completely unchanged; in particular `FLG_THD_WAIT` is not set and
the yield loop is never entered. -/
theorem c10_self_wait_returns_minus_one (s : Sched) :
    gfxThreadWaitEntry s s.current = Sum.inl (-1, s) := by
  simp [gfxThreadWaitEntry]

/-! ## Claim C5: `gfxThreadCreate` failure and minimum stack size -/

/-- C5: `gfxThreadCreate` returns null exactly when the dynamic stack
allocation path is taken (no usable caller buffer) and `gfxAlloc` fails;
in that case the state — Ready queue and every thread block — is returned
unchanged.  A requested size below `sizeof(thread)+64` is silently raised
to that minimum and the caller-supplied buffer is discarded in favour of
forced dynamic allocation. -/
theorem c5_create_null_iff_alloc_fails (s : Sched) (sa : Option Nat) (sz fnv : Nat)
    (p : Int) (alloc : Option Nat) (szT : Nat) :
    ((gfxThreadCreate s sa sz fnv p alloc szT).1 = none ↔
      ((sa = none ∨ sz < szT + 64) ∧ alloc = none)) ∧
    ((gfxThreadCreate s sa sz fnv p alloc szT).1 = none →
      (gfxThreadCreate s sa sz fnv p alloc szT).2 = s) ∧
    (sz < szT + 64 → ∀ t, alloc = some t →
      (gfxThreadCreate s sa sz fnv p alloc szT).1 = some t ∧
      ((gfxThreadCreate s sa sz fnv p alloc szT).2.mem t).size = szT + 64 ∧
      ((gfxThreadCreate s sa sz fnv p alloc szT).2.mem t).flags.alloc = true) := by
  by_cases hsz : sz < szT + 64 <;> cases sa <;> cases alloc <;>
    simp [gfxThreadCreate, hsz, upd, Nat.not_lt.mp]

/-! ## Claim C3: `gfxThreadWait` returns the `gfxThreadExit` value -/

/-- After thread `h` has exited with result `v` while being waited on:
`h` is dead with `param = v`, sits in no queue, is not running, and its
block is still allocated. -/
def waitPending (s : Sched) (h : Nat) (v : Int) : Prop :=
  (s.mem h).flags.dead = true ∧ (s.mem h).param = v ∧
  h ∉ s.deadQ ∧ h ∉ s.readyQ ∧ h ≠ s.current ∧ h ∈ s.alive

theorem headD_append_mem (l : List Nat) (x d : Nat) : (l ++ [x]).headD d ∈ l ++ [x] := by
  cases l <;> simp

/-- Every scheduler step other than the waiter's own return leaves a dead,
awaited thread's stored result (and its deadness) intact. -/
theorem waitPending_step (s : Sched) (a : SchedAct) (s2 : Sched) (h : Nat) (v : Int)
    (hstep : SchedStep s a s2) (hp : waitPending s h v)
    (hnot : a ≠ SchedAct.waitFinish h) : waitPending s2 h v := by
  obtain ⟨hdead, hparam, hdq, hrq, hcur, hal⟩ := hp
  cases hstep with
  | yield =>
      refine ⟨hdead, hparam, by simp [gfxYield], ?_, ?_, ?_⟩
      · simp only [gfxYield]
        intro hmem
        have h2 := List.mem_of_mem_tail hmem
        simp only [List.mem_append, List.mem_singleton] at h2
        rcases h2 with h3 | h3
        · exact hrq h3
        · exact hcur h3
      · simp only [gfxYield]
        intro he
        have h2 := headD_append_mem s.readyQ s.current s.current
        rw [← he] at h2
        simp only [List.mem_append, List.mem_singleton] at h2
        rcases h2 with h3 | h3
        · exact hrq h3
        · exact hcur h3
      · simp only [gfxYield]
        rw [List.mem_filter]
        exact ⟨hal, by simpa using hdq⟩
  | exitThread v2 s2x hexit =>
      unfold gfxThreadExit at hexit
      cases hrqs : s.readyQ with
      | nil =>
          rw [hrqs] at hexit
          simp at hexit
      | cons c2 rest =>
          rw [hrqs] at hexit
          dsimp only at hexit
          have hs2 := Option.some.inj hexit
          subst hs2
          have hne : h ≠ s.current := hcur
          refine ⟨?_, ?_, ?_, ?_, ?_, hal⟩
          · show ((upd s.mem s.current _) h).flags.dead = true
            rw [upd_other _ _ _ _ hne]
            exact hdead
          · show ((upd s.mem s.current _) h).param = v
            rw [upd_other _ _ _ _ hne]
            exact hparam
          · show h ∉ (if _ then s.deadQ ++ [s.current] else s.deadQ)
            split
            · simp only [List.mem_append, List.mem_singleton]
              rintro (h3 | h3)
              · exact hdq h3
              · exact hcur h3
            · exact hdq
          · show h ∉ rest
            intro h3
            exact hrq (by rw [hrqs]; exact List.mem_cons_of_mem _ h3)
          · show h ≠ c2
            intro h3
            exact hrq (by rw [hrqs, h3]; exact List.mem_cons_self _ _)
  | create sa sz fnv p alloc szT hfresh1 hfresh2 =>
      by_cases hsz : sz < szT + 64
      · cases halloc : alloc with
        | none =>
            refine ⟨?_, ?_, ?_, ?_, ?_, ?_⟩ <;>
              simp [gfxThreadCreate, hsz, halloc, hdead, hparam, hdq, hrq, hcur, hal]
        | some t =>
            have hth : h ≠ t := by
              intro he
              exact hfresh2 t halloc (he ▸ hal)
            refine ⟨?_, ?_, ?_, ?_, ?_, ?_⟩ <;>
              simp [gfxThreadCreate, hsz, halloc, upd, hth, hdead, hparam, hdq, hrq, hcur, hal]
      · cases hsa : sa with
        | some t =>
            have hth : h ≠ t := by
              intro he
              exact hfresh1 t hsa (he ▸ hal)
            refine ⟨?_, ?_, ?_, ?_, ?_, ?_⟩ <;>
              simp [gfxThreadCreate, hsz, hsa, upd, hth, hdead, hparam, hdq, hrq, hcur, hal]
        | none =>
            cases halloc : alloc with
            | none =>
                refine ⟨?_, ?_, ?_, ?_, ?_, ?_⟩ <;>
                  simp [gfxThreadCreate, hsz, hsa, halloc, hdead, hparam, hdq, hrq, hcur, hal]
            | some t =>
                have hth : h ≠ t := by
                  intro he
                  exact hfresh2 t halloc (he ▸ hal)
                refine ⟨?_, ?_, ?_, ?_, ?_, ?_⟩ <;>
                  simp [gfxThreadCreate, hsz, hsa, halloc, upd, hth, hdead, hparam, hdq,
                    hrq, hcur, hal]
  | waitEntry th s2x hentry =>
      unfold gfxThreadWaitEntry at hentry
      split at hentry
      · simp at hentry
      · dsimp only at hentry
        have hs2 := Sum.inr.inj hentry
        subst hs2
        refine ⟨?_, ?_, hdq, hrq, hcur, hal⟩
        · by_cases hth : h = th
          · subst hth
            simp [upd, hdead]
          · simp [upd, hth, hdead]
        · by_cases hth : h = th
          · subst hth
            simp [upd, hparam]
          · simp [upd, hth, hparam]
  | waitSelf => exact ⟨hdead, hparam, hdq, hrq, hcur, hal⟩
  | waitFinish th hdeadth =>
      have hth : th ≠ h := by
        intro he
        subst he
        exact hnot rfl
      unfold gfxThreadWaitFinish
      dsimp only
      split
      · refine ⟨?_, ?_, hdq, hrq, hcur, ?_⟩
        · show ((upd s.mem th _) h).flags.dead = true
          rw [upd_other _ _ _ _ (Ne.symm hth)]
          exact hdead
        · show ((upd s.mem th _) h).param = v
          rw [upd_other _ _ _ _ (Ne.symm hth)]
          exact hparam
        · rw [List.mem_filter]
          refine ⟨hal, by simp [Ne.symm hth]⟩
      · refine ⟨?_, ?_, hdq, hrq, hcur, hal⟩
        · show ((upd s.mem th _) h).flags.dead = true
          rw [upd_other _ _ _ _ (Ne.symm hth)]
          exact hdead
        · show ((upd s.mem th _) h).param = v
          rw [upd_other _ _ _ _ (Ne.symm hth)]
          exact hparam

/-- `waitPending` is preserved by any run that does not contain the
waiter's own return on `h`. -/
theorem waitPending_steps (s s2 : Sched) (acts : List SchedAct) (fr : List Nat)
    (h : Nat) (v : Int) (hsteps : SchedSteps s acts fr s2) (hp : waitPending s h v)
    (hnof : ∀ th, SchedAct.waitFinish th ∈ acts → th ≠ h) : waitPending s2 h v := by
  induction hsteps with
  | refl => exact hp
  | tail acts2 fr2 sb a sc hsteps2 hstep ih =>
      refine waitPending_step sb a sc h v hstep (ih ?_) ?_
      · intro th hth
        exact hnof th (by simp [hth])
      · intro he
        cases he
        exact hnof h (by simp) rfl

/-- `gfxThreadExit v`, run while the exiting thread is being waited on,
establishes `waitPending`: the result is stored, the thread is dead, and
— because `FLG_THD_WAIT` is set — it is not handed to the Dead queue. -/
theorem gfxThreadExit_establishes (s s1 : Sched) (h : Nat) (v : Int)
    (hcur : s.current = h) (hwait : (s.mem h).flags.waited = true)
    (hnd : h ∉ s.deadQ) (hnr : h ∉ s.readyQ) (hal : h ∈ s.alive)
    (hexit : gfxThreadExit v s = some s1) : waitPending s1 h v := by
  subst hcur
  unfold gfxThreadExit at hexit
  cases hrqs : s.readyQ with
  | nil =>
      rw [hrqs] at hexit
      simp at hexit
  | cons c2 rest =>
      rw [hrqs] at hexit
      dsimp only at hexit
      have hs1 := Option.some.inj hexit
      subst hs1
      refine ⟨?_, ?_, ?_, ?_, ?_, hal⟩
      · show ((upd s.mem s.current _) s.current).flags.dead = true
        rw [upd_same]
      · show ((upd s.mem s.current _) s.current).param = v
        rw [upd_same]
      · show s.current ∉ (if _ then s.deadQ ++ [s.current] else s.deadQ)
        rw [if_neg]
        · exact hnd
        · simp [hwait]
      · show s.current ∉ rest
        intro h3
        exact hnr (by rw [hrqs]; exact List.mem_cons_of_mem _ h3)
      · show s.current ≠ c2
        intro h3
        exact hnr (by rw [hrqs, h3]; exact List.mem_cons_self _ _)

/-- C3: if thread `h` is being waited on (`FLG_THD_WAIT` set by the
waiter's entry into `gfxThreadWait`) and exits with value `v`, then after
any further scheduler activity that is not the waiter's own return, the
waiter's loop-exit step observes `h` dead and returns exactly `v` — the
value passed to `gfxThreadExit`. -/
theorem c3_wait_returns_exit_value (s s1 s2 : Sched) (h : Nat) (v : Int)
    (acts : List SchedAct) (fr : List Nat)
    (hcur : s.current = h)
    (hwait : (s.mem h).flags.waited = true)
    (hnd : h ∉ s.deadQ) (hnr : h ∉ s.readyQ) (hal : h ∈ s.alive)
    (hexit : gfxThreadExit v s = some s1)
    (hsteps : SchedSteps s1 acts fr s2)
    (hnof : ∀ th, SchedAct.waitFinish th ∈ acts → th ≠ h) :
    (gfxThreadWaitFinish s2 h).1 = v ∧ (s2.mem h).flags.dead = true := by
  have hp1 := gfxThreadExit_establishes s s1 h v hcur hwait hnd hnr hal hexit
  have hp2 := waitPending_steps s1 s2 acts fr h v hsteps hp1 hnof
  obtain ⟨hdead, hparam, _, _, _, _⟩ := hp2
  constructor
  · unfold gfxThreadWaitFinish
    dsimp only
    split
    · exact hparam
    · exact hparam
  · exact hdead

/-! ### Concrete scheduler runs -/

/-- A zeroed thread block. -/
def thread0 : thread := ⟨⟨false, false, false, false⟩, 0, 0, 0⟩

/-- Two threads 0 and 1; thread 0 runs and is being waited on
(`FLG_THD_WAIT` set by the waiter), thread 1 is ready. -/
def waitSched : Sched :=
  { mem := upd (fun _ => thread0) 0 { thread0 with flags := ⟨false, false, true, false⟩ }
    current := 0
    readyQ := [1]
    deadQ := []
    alive := [0, 1] }

/-- `waitSched` after thread 0 exits with value 7. -/
def waitSched1 : Sched := (gfxThreadExit 7 waitSched).getD waitSched

/-- Witness for `c3_wait_returns_exit_value`: thread 0 exits with 7 while
waited on; the waiter's loop-exit immediately observes it dead and
returns 7. -/
theorem c3_wait_returns_exit_value_witness :
    (gfxThreadWaitFinish waitSched1 0).1 = 7 ∧ (waitSched1.mem 0).flags.dead = true :=
  c3_wait_returns_exit_value waitSched waitSched1 waitSched1 0 7 [] [] rfl (by decide)
    (by decide) (by decide) (by decide) rfl (SchedSteps.refl waitSched1)
    (by intro th hmem; simp at hmem)

/-- Witness for `c5_create_null_iff_alloc_fails`: a request of 10 bytes
with `sizeof(thread) = 100` is upsized to 164 and forced to the dynamic
path even though a caller buffer was supplied. -/
theorem c5_create_null_iff_alloc_fails_witness :
    (gfxThreadCreate waitSched (some 5) 10 7 0 (some 9) 100).1 = some 9 ∧
    ((gfxThreadCreate waitSched (some 5) 10 7 0 (some 9) 100).2.mem 9).size = 100 + 64 ∧
    ((gfxThreadCreate waitSched (some 5) 10 7 0 (some 9) 100).2.mem 9).flags.alloc = true :=
  (c5_create_null_iff_alloc_fails waitSched (some 5) 10 7 0 (some 9) 100).2.2
    (by decide) 9 rfl

/-! ### The stale Dead-queue double free

`gfxThreadExit` of a library-owned, not-yet-awaited thread parks the block
in the Dead queue.  A later `gfxThreadWait` on that same handle frees the
block itself (it carries `FLG_THD_ALLOC`) — but the Dead-queue entry
remains.  Once the storage is recycled for a thread with a caller-supplied
stack buffer, the next `gfxYield` pops the stale entry and hands the
caller's block, whose flags carry no `FLG_THD_ALLOC`, to `gfxFree`. -/

/-- Threads 0 (running) and 1 (ready); block 2 not yet allocated. -/
def schedS0 : Sched := ⟨fun _ => thread0, 0, [1], [], [0, 1]⟩

/-- Thread 2 created with a dynamically allocated stack. -/
def schedS1 : Sched := (gfxThreadCreate schedS0 none 200 7 0 (some 2) 100).2

/-- Yield: thread 1 runs. -/
def schedS2 : Sched := (gfxYield schedS1).1

/-- Yield: thread 2 runs. -/
def schedS3 : Sched := (gfxYield schedS2).1

/-- Thread 2 exits with value 7, unobserved: it joins the Dead queue. -/
def schedS4 : Sched := (gfxThreadExit 7 schedS3).getD schedS0

/-- Thread 0 enters `gfxThreadWait(2)`: `FLG_THD_WAIT` set on block 2. -/
def schedS5 : Sched := (gfxThreadWaitEntry schedS4 2).elim (fun x => x.2) id

/-- The wait loop sees block 2 dead at once and frees it (it carries
`FLG_THD_ALLOC`) — while the Dead queue still holds the handle. -/
def schedS6 : Sched := (gfxThreadWaitFinish schedS5 2).2.1

/-- The freed storage is recycled: a new thread is created with block 2 as
a caller-supplied stack buffer. -/
def schedS7 : Sched := (gfxThreadCreate schedS6 (some 2) 200 8 0 none 100).2

/-- The next `gfxYield` pops the stale Dead-queue entry and frees the
caller-supplied block 2. -/
def schedS8 : Sched := (gfxYield schedS7).1

/-- C9: violated by the code.  The run below is a legitimate scheduler
history (every step is a `SchedStep`): block 2 is freed twice — once by
`gfxThreadWait`, once by `gfxYield`'s Dead-queue reclamation via the stale
entry — and at the second free it is a live caller-owned thread block with
`FLG_THD_ALLOC` clear, so `gfxFree` is applied to caller-supplied storage. -/
theorem c9_stale_deadq_frees_caller_block :
    SchedSteps schedS0
      [SchedAct.create none 200 7 0 (some 2) 100, SchedAct.yield, SchedAct.yield,
        SchedAct.exitThread 7, SchedAct.waitEntry 2, SchedAct.waitFinish 2,
        SchedAct.create (some 2) 200 8 0 none 100, SchedAct.yield]
      [2, 2] schedS8 ∧
    callerThread schedS7 2 ∧
    freedBy schedS7 SchedAct.yield = [2] ∧
    (schedS7.mem 2).flags.alloc = false := by
  refine ⟨?_, ?_, ?_, ?_⟩
  · have t1 : SchedStep schedS0 (SchedAct.create none 200 7 0 (some 2) 100) schedS1 :=
      SchedStep.create schedS0 none 200 7 0 (some 2) 100
        (by intro t ht; simp at ht)
        (by intro t ht; cases Option.some.inj ht; decide)
    have t2 : SchedStep schedS1 SchedAct.yield schedS2 := SchedStep.yield schedS1
    have t3 : SchedStep schedS2 SchedAct.yield schedS3 := SchedStep.yield schedS2
    have t4 : SchedStep schedS3 (SchedAct.exitThread 7) schedS4 :=
      SchedStep.exitThread schedS3 7 schedS4 rfl
    have t5 : SchedStep schedS4 (SchedAct.waitEntry 2) schedS5 :=
      SchedStep.waitEntry schedS4 2 schedS5 rfl
    have t6 : SchedStep schedS5 (SchedAct.waitFinish 2) schedS6 :=
      SchedStep.waitFinish schedS5 2 (by decide)
    have t7 : SchedStep schedS6 (SchedAct.create (some 2) 200 8 0 none 100) schedS7 :=
      SchedStep.create schedS6 (some 2) 200 8 0 none 100
        (by intro t ht; cases Option.some.inj ht; decide)
        (by intro t ht; simp at ht)
    have t8 : SchedStep schedS7 SchedAct.yield schedS8 := SchedStep.yield schedS7
    have d1 := SchedSteps.tail _ _ _ _ _ _ (SchedSteps.refl schedS0) t1
    have d2 := SchedSteps.tail _ _ _ _ _ _ d1 t2
    have d3 := SchedSteps.tail _ _ _ _ _ _ d2 t3
    have d4 := SchedSteps.tail _ _ _ _ _ _ d3 t4
    have d5 := SchedSteps.tail _ _ _ _ _ _ d4 t5
    have d6 := SchedSteps.tail _ _ _ _ _ _ d5 t6
    have d7 := SchedSteps.tail _ _ _ _ _ _ d6 t7
    have d8 := SchedSteps.tail _ _ _ _ _ _ d7 t8
    exact d8
  · exact ⟨by decide, by decide⟩
  · decide
  · decide
